import Mathlib

/-!
Formal model of the social-media/mental-health survey pipeline.

The definitions below are a shallow embedding of the two components of the
repository: the ETL recoder in src/etl.py (field normalisation, multi-select
expansion, Likert range validation, analysis-inclusion flag) and the EDA
analyzer in run_eda.py (pairwise-complete hypothesis tests, segment guards,
jittered chart rendering).  Machine floats of the source are modelled as
rationals, pandas missing values as Option, and raised exceptions as Except.
Theorems checking the specified properties follow the definitions.
-/

/-! ### String helpers (Python str.strip, str.lower, substring containment) -/

/-- ASCII whitespace predicate, modelling the characters stripped by the
Python str.strip calls in etl.py for the survey alphabet. -/
def isSpaceChar (c : Char) : Bool :=
  c == ' ' || c == '\t' || c == '\n' || c == '\r'

/-- Model of Python str.strip(): drop whitespace from both ends. -/
def pyStrip (s : String) : String :=
  String.mk (((s.toList.dropWhile isSpaceChar).reverse.dropWhile isSpaceChar).reverse)

/-- Model of Python str.lower() over the ASCII survey alphabet. -/
def pyLower (s : String) : String :=
  String.mk (s.toList.map Char.toLower)

/-- strip then lower, the canonicalisation used by clean_gender and
clean_yes_no in etl.py. -/
def pyCanon (s : String) : String :=
  pyLower (pyStrip s)

/-- Whether the first list starts with the second (character pattern). -/
def listStarts (hay : List Char) : List Char → Bool
  | [] => true
  | d :: ds =>
    match hay with
    | [] => false
    | c :: cs => c == d && listStarts cs ds

/-- Whether the pattern occurs as a contiguous sublist of the haystack;
models the Python `in` operator on strings. -/
def containsSub (pat : List Char) : List Char → Bool
  | [] => listStarts [] pat
  | c :: hs => listStarts (c :: hs) pat || containsSub pat hs

/-- Model of Python `needle in hay` for strings. -/
def strContains (hay needle : String) : Bool :=
  containsSub needle.toList hay.toList

/-! ### Association-list lookup (Python dict lookup over literal tables) -/

/-- Lookup in a literal key/value table, modelling a Python dict built from a
literal mapping (etl.py configuration constants). -/
def alookup {α : Type} (m : List (String × α)) (k : String) : Option α :=
  match m with
  | [] => none
  | p :: rest => if k = p.1 then some p.2 else alookup rest k

/-! ### Raw cell values and numeric coercion -/

/-- One raw CSV cell as seen by pandas: missing, a number, a string that
parses as a number, or free text that does not.  pd.to_numeric with
errors="coerce" sends the last class to NaN. -/
inductive RawVal : Type
  | na : RawVal
  | num : ℚ → RawVal
  | numText : ℚ → RawVal
  | text : String → RawVal
deriving DecidableEq

/-- Model of pd.to_numeric(errors="coerce") on one cell. -/
def toNumeric : RawVal → Option ℚ
  | .na => none
  | .num q => some q
  | .numText q => some q
  | .text _ => none

/-- Python int(): truncation toward zero, computed on the reduced
numerator and denominator. -/
def intTrunc (q : ℚ) : ℤ :=
  Int.tdiv q.num (q.den : ℤ)

/-- Rounding used by pandas Series.round(): half to even.  The fractional
part r = q - floor q is compared with one half through the equivalent
integer comparison of 2*(num - floor*den) against den. -/
def roundHalfEven (q : ℚ) : ℤ :=
  let f := q.floor
  let twiceRem := 2 * (q.num - f * (q.den : ℤ))
  if twiceRem < (q.den : ℤ) then f
  else if (q.den : ℤ) < twiceRem then f + 1
  else if f % 2 = 0 then f else f + 1

/-! ### Configuration constants from etl.py -/

/-- LIKERT_COLUMNS of etl.py: the 12 scale columns, in validation order. -/
def LIKERT_COLUMNS : List String :=
  ["purposeless_use", "distracted_when_busy", "restless_without_sm",
   "easily_distracted", "worries_bother", "difficulty_concentrating",
   "compare_to_successful", "comparison_feelings", "seek_validation",
   "low_mood_freq", "interest_fluctuation", "sleep_issues"]

/-- PLATFORMS of etl.py: the 9 platform names. -/
def PLATFORMS : List String :=
  ["Facebook", "Twitter", "Instagram", "YouTube", "Snapchat",
   "Discord", "Reddit", "Pinterest", "TikTok"]

/-- AFFILIATIONS of etl.py: bucket key to list of match values (the last
bucket lists the empty string among its match values). -/
def AFFILIATIONS : List (String × List String) :=
  [("university", ["University"]),
   ("school", ["School"]),
   ("company", ["Company"]),
   ("private", ["Private"]),
   ("government", ["Government", "Goverment"]),
   ("na", ["N/A", "NA", ""])]

/-- TIME_BAND_MIDPOINTS of etl.py. -/
def TIME_BAND_MIDPOINTS : List (String × ℚ) :=
  [("Less than an Hour", mkRat 1 2),
   ("Between 1 and 2 hours", mkRat 3 2),
   ("Between 2 and 3 hours", mkRat 5 2),
   ("Between 3 and 4 hours", mkRat 7 2),
   ("Between 4 and 5 hours", mkRat 9 2),
   ("More than 5 hours", mkRat 11 2)]

/-- GENDER_NORMALISATION of etl.py: canonical lowercase synonym to clean
category. -/
def GENDER_NORMALISATION : List (String × String) :=
  [("male", "Male"), ("m", "Male"), ("man", "Male"),
   ("female", "Female"), ("f", "Female"), ("woman", "Female"),
   ("nonbinary", "Non-binary"), ("non-binary", "Non-binary"),
   ("non binary", "Non-binary"), ("nb", "Non-binary"),
   ("enby", "Non-binary"), ("genderqueer", "Non-binary"),
   ("genderfluid", "Non-binary"), ("agender", "Non-binary"),
   ("trans", "Trans"), ("transgender", "Trans"),
   ("trans male", "Trans"), ("trans female", "Trans"),
   ("trans man", "Trans"), ("trans woman", "Trans"),
   ("unsure", "Unsure"), ("questioning", "Unsure"), ("unknown", "Unsure"),
   ("prefer not to say", "Prefer not to say"),
   ("rather not say", "Prefer not to say"),
   ("decline", "Prefer not to say")]

/-- GENDER_GROUPING of etl.py: clean category to privacy group. -/
def GENDER_GROUPING : List (String × String) :=
  [("Male", "Male"), ("Female", "Female"),
   ("Non-binary", "Non-binary & Other"), ("Trans", "Non-binary & Other"),
   ("Unsure", "Non-binary & Other"), ("Other", "Non-binary & Other"),
   ("Prefer not to say", "Prefer not to say")]

/-! ### Per-field transforms of etl.py -/

/-- Age band from the coerced numeric age: get_age_band in clean_age.
The source converts the float with int() before comparing cutoffs. -/
def getAgeBand : Option ℚ → String
  | none => "Unknown"
  | some q =>
    let a := intTrunc q
    if a < 18 then "<18"
    else if a ≤ 24 then "18-24"
    else if a ≤ 34 then "25-34"
    else if a ≤ 44 then "35-44"
    else "45+"

/-- The stored nullable integer age: clean_age coerces to numeric and then
rounds into a nullable integer column. -/
def cleanAgeStored (v : RawVal) : Option ℤ :=
  (toNumeric v).map roundHalfEven

/-- The age band column value produced by clean_age for one raw cell. -/
def cleanAgeBand (v : RawVal) : String :=
  getAgeBand (toNumeric v)

/-- normalise_gender of clean_gender: missing maps to "Prefer not to say",
otherwise strip/lower then synonym lookup with fallback "Other". -/
def normaliseGender : Option String → String
  | none => "Prefer not to say"
  | some v =>
    match alookup GENDER_NORMALISATION (pyCanon v) with
    | some g => g
    | none => "Other"

/-- to_bool of clean_yes_no: a tri-state boolean. -/
def yesNoBool : Option String → Option Bool
  | none => none
  | some s =>
    let c := pyCanon s
    if ["yes", "y", "true", "1"].contains c then some true
    else if ["no", "n", "false", "0"].contains c then some false
    else none

/-- has_platform of parse_platforms for a single platform name. -/
def hasPlatform (p : String) (val : Option String) : ℕ :=
  match val with
  | none => 0
  | some s => if strContains (pyLower s) (pyLower p) then 1 else 0

/-- The 9 platform flag columns for one raw multi-select cell. -/
def platformFlagsOf (val : Option String) : List ℕ :=
  PLATFORMS.map (fun p => hasPlatform p val)

/-- platform_count: row-wise sum of the 9 platform flag columns. -/
def platformCountOf (val : Option String) : ℕ :=
  (platformFlagsOf val).sum

/-- has_affiliation of parse_affiliations: a missing value matches a bucket
iff that bucket lists the empty string; otherwise the stripped value is
matched by lowercase substring containment against each match value. -/
def hasAffiliation (values : List String) (val : Option String) : ℕ :=
  match val with
  | none => if values.contains "" then 1 else 0
  | some s =>
    if values.any (fun v => strContains (pyLower (pyStrip s)) (pyLower v)) then 1
    else 0

/-- The 6 affiliation flag columns for one raw affiliation cell, in
AFFILIATIONS order (index 5 is the "na" bucket). -/
def affilFlagsOf (val : Option String) : List ℕ :=
  AFFILIATIONS.map (fun p => hasAffiliation p.2 val)

/-- create_time_midpoint on a whole column: the mapped midpoints plus the
distinct non-missing labels that did not map (the warned values).  The
source prints a warning for these and never raises. -/
def createTimeMidpoint (col : List (Option String)) :
    List (Option ℚ) × List String :=
  (col.map (fun v => v.bind (alookup TIME_BAND_MIDPOINTS)),
   ((col.filterMap id).filter
     (fun b => (alookup TIME_BAND_MIDPOINTS b).isNone)).dedup)

/-! ### Pipeline rows -/

/-- One raw survey row restricted to the fields the transforms read.  The
relationship and occupation fields are passed through untouched. -/
structure RawRow : Type where
  ageRaw : RawVal
  genderRaw : Option String
  usesSmRaw : Option String
  platformsRaw : Option String
  affilsRaw : Option String
  timeBandRaw : Option String
  relationshipStatus : Option String
  occupationStatus : Option String
  likertRaw : List RawVal
deriving DecidableEq

/-- A row after the transforms that precede Likert validation in run_etl
(clean_age through create_time_midpoint).  The Likert cells are still raw:
validate_likert_scales coerces and converts them. -/
structure MidRow : Type where
  age : Option ℤ
  ageBand : String
  genderClean : String
  genderGrouped : Option String
  usesSm : Option Bool
  platformFlags : List ℕ
  platformCount : ℕ
  affilFlags : List ℕ
  dailyHoursMidpoint : Option ℚ
  relationshipStatus : Option String
  occupationStatus : Option String
  platformsRaw : Option String
  affilsRaw : Option String
  timeBandRaw : Option String
  likertRaw : List RawVal
deriving DecidableEq

/-- A fully cleaned row: Likert cells validated and stored as nullable
integers, plus the include_in_analysis flag. -/
structure CleanRow : Type where
  age : Option ℤ
  ageBand : String
  genderClean : String
  genderGrouped : Option String
  usesSm : Option Bool
  platformFlags : List ℕ
  platformCount : ℕ
  affilFlags : List ℕ
  dailyHoursMidpoint : Option ℚ
  relationshipStatus : Option String
  occupationStatus : Option String
  platformsRaw : Option String
  affilsRaw : Option String
  timeBandRaw : Option String
  likert : List (Option ℤ)
  includeInAnalysis : Bool
deriving DecidableEq

/-- The per-row effect of the transform steps of run_etl that precede
validate_likert_scales, applied in source order; each step writes its own
fields and leaves the rest alone. -/
def midRow (r : RawRow) : MidRow :=
  { age := cleanAgeStored r.ageRaw
    ageBand := cleanAgeBand r.ageRaw
    genderClean := normaliseGender r.genderRaw
    genderGrouped := alookup GENDER_GROUPING (normaliseGender r.genderRaw)
    usesSm := yesNoBool r.usesSmRaw
    platformFlags := platformFlagsOf r.platformsRaw
    platformCount := platformCountOf r.platformsRaw
    affilFlags := affilFlagsOf r.affilsRaw
    dailyHoursMidpoint := r.timeBandRaw.bind (alookup TIME_BAND_MIDPOINTS)
    relationshipStatus := r.relationshipStatus
    occupationStatus := r.occupationStatus
    platformsRaw := r.platformsRaw
    affilsRaw := r.affilsRaw
    timeBandRaw := r.timeBandRaw
    likertRaw := r.likertRaw }

/-! ### Likert validation (validate_likert_scales) -/

/-- Column minimum, modelling pandas Series.min() with skipna over the
present values. -/
def listMinQ : List ℚ → Option ℚ
  | [] => none
  | q :: qs =>
    match listMinQ qs with
    | none => some q
    | some m => some (if q ≤ m then q else m)

/-- Column maximum, modelling pandas Series.max() with skipna. -/
def listMaxQ : List ℚ → Option ℚ
  | [] => none
  | q :: qs =>
    match listMaxQ qs with
    | none => some q
    | some m => some (if m ≤ q then q else m)

/-- The range-validation message for a value below 1 in the named column. -/
def belowMsg (name : String) : String :=
  "Likert column " ++ name ++ " has value below 1"

/-- The range-validation message for a value above 5 in the named column. -/
def aboveMsg (name : String) : String :=
  "Likert column " ++ name ++ " has value above 5"

/-- The pandas safe-cast failure message raised by Series.astype("Int64")
on a non-integral float. -/
def castMsg : String :=
  "cannot safely cast non-equivalent float64 to int64"

/-- Model of Series.astype("Int64") on the coerced column: missing stays
missing, an integral value becomes that integer, a non-integral value makes
pandas raise its safe-cast error. -/
def astypeInt64 : List (Option ℚ) → Except String (List (Option ℤ))
  | [] => .ok []
  | none :: rest =>
    match astypeInt64 rest with
    | .error e => .error e
    | .ok out => .ok (none :: out)
  | some q :: rest =>
    if q.den = 1 then
      match astypeInt64 rest with
      | .error e => .error e
      | .ok out => .ok (some q.num :: out)
    else .error castMsg

/-- Whether the column minimum exists and is below 1. -/
def colMinBad (present : List ℚ) : Bool :=
  match listMinQ present with
  | some m => decide (m < 1)
  | none => false

/-- Whether the column maximum exists and is above 5. -/
def colMaxBad (present : List ℚ) : Bool :=
  match listMaxQ present with
  | some m => decide (5 < m)
  | none => false

/-- The body of the validate_likert_scales loop for one column: range checks
on the coerced values, then the Int64 conversion. -/
def checkCol (name : String) (vals : List (Option ℚ)) :
    Except String (List (Option ℤ)) :=
  if colMinBad (vals.filterMap id) then .error (belowMsg name)
  else if colMaxBad (vals.filterMap id) then .error (aboveMsg name)
  else astypeInt64 vals

/-- The coerced values of Likert column i over the table, as produced by
pd.to_numeric(errors="coerce") inside validate_likert_scales. -/
def likertColVals (t : List MidRow) (i : ℕ) : List (Option ℚ) :=
  t.map (fun r => toNumeric (r.likertRaw.getD i .na))

/-- The Likert columns paired with their positions, in validation order. -/
def likertPairs : List (String × ℕ) :=
  LIKERT_COLUMNS.enum.map (fun p => (p.2, p.1))

/-- The validate_likert_scales loop over the columns: the first failing
column aborts the pipeline, otherwise the converted columns are returned. -/
def validateCols : List (String × ℕ) → List MidRow →
    Except String (List (List (Option ℤ)))
  | [], _ => .ok []
  | p :: rest, t =>
    match checkCol p.1 (likertColVals t p.2) with
    | .error e => .error e
    | .ok c =>
      match validateCols rest t with
      | .error e => .error e
      | .ok cs => .ok (c :: cs)

/-- Rebuild one clean row from a mid row and its validated Likert cells;
the analysis flag is written by the later create_analysis_flag step. -/
def toCleanRow (r : MidRow) (lik : List (Option ℤ)) : CleanRow :=
  { age := r.age
    ageBand := r.ageBand
    genderClean := r.genderClean
    genderGrouped := r.genderGrouped
    usesSm := r.usesSm
    platformFlags := r.platformFlags
    platformCount := r.platformCount
    affilFlags := r.affilFlags
    dailyHoursMidpoint := r.dailyHoursMidpoint
    relationshipStatus := r.relationshipStatus
    occupationStatus := r.occupationStatus
    platformsRaw := r.platformsRaw
    affilsRaw := r.affilsRaw
    timeBandRaw := r.timeBandRaw
    likert := lik
    includeInAnalysis := false }

/-- validate_likert_scales over the table: validate every column, then put
the converted cells back into the rows. -/
def validateLikert (t : List MidRow) : Except String (List CleanRow) :=
  match validateCols likertPairs t with
  | .error e => .error e
  | .ok cols =>
    .ok (t.enum.map (fun p => toCleanRow p.2 (cols.map (fun c => c.getD p.1 none))))

/-- create_analysis_flag: include_in_analysis is the elementwise comparison
of uses_social_media with True (missing compares unequal). -/
def createAnalysisFlag (r : CleanRow) : CleanRow :=
  { r with includeInAnalysis := r.usesSm == some true }

/-- run_etl: the transform steps, the Likert validation gate, the analysis
flag, then emission.  A validation error aborts before anything is
emitted.  Column reordering permutes columns only and is the identity on
this row representation. -/
def runEtl (t : List RawRow) : Except String (List CleanRow) :=
  match validateLikert (t.map midRow) with
  | .error e => .error e
  | .ok cleaned => .ok (cleaned.map createAnalysisFlag)

/-- The cleaned-table file contents: written only when run_etl reaches the
save step, absent when the pipeline aborts. -/
def emittedTable (t : List RawRow) : Option (List CleanRow) :=
  match runEtl t with
  | .ok rows => some rows
  | .error _ => none

/-! ### Helper predicates for the Likert claims -/

/-- Whether a coerced cell is present and outside the closed range [1,5]. -/
def offendOpt : Option ℚ → Bool
  | none => false
  | some q => decide (q < 1 ∨ 5 < q)

/-- Whether one raw Likert cell coerces to a present out-of-range value. -/
def offendVal (v : RawVal) : Bool :=
  offendOpt (toNumeric v)

/-- Whether a coerced cell is either missing or an integral value (so that
the Int64 conversion cannot raise on it). -/
def integralOpt : Option ℚ → Bool
  | none => true
  | some q => q.den == 1

/-- Integrality of one raw Likert cell after coercion. -/
def integralVal (v : RawVal) : Bool :=
  integralOpt (toNumeric v)

/-! ### Analyzer (run_eda.py) -/

/-- One cleaned-table row restricted to the fields the hypothesis battery
reads, with its include_in_analysis flag. -/
structure ARow : Type where
  dailyTimeBand : Option String
  purposelessUse : Option ℚ
  compareToSuccessful : Option ℚ
  seekValidation : Option ℚ
  restlessWithoutSm : Option ℚ
  lowMoodFreq : Option ℚ
  sleepIssues : Option ℚ
  includeFlag : Bool
deriving DecidableEq

/-- One evaluated test before tabulation: sample size, statistic, p-value,
effect size and its qualitative bucket. -/
structure HypResult : Type where
  n : ℕ
  statistic : ℚ
  pValue : ℚ
  effectSizeName : String
  effectSizeValue : ℚ
  interpretation : String
deriving DecidableEq

/-- One row of the persisted hypothesis results table. -/
structure HypRecord : Type where
  hypothesisId : String
  outcome : String
  predictor : String
  testUsed : String
  n : ℕ
  statistic : ℚ
  pValue : ℚ
  effectSizeName : String
  effectSizeValue : ℚ
  interpretation : String
  significant : Bool
deriving DecidableEq

/-- interpret_rho of run_eda.py. -/
def interpretRho (rho : ℚ) : String :=
  if |rho| < 1/10 then "negligible"
  else if |rho| < 3/10 then "small"
  else if |rho| < 1/2 then "moderate"
  else "large"

/-- interpret_epsilon of run_eda.py. -/
def interpretEpsilon (eps : ℚ) : String :=
  if eps < 1/100 then "negligible"
  else if eps < 6/100 then "small"
  else if eps < 14/100 then "moderate"
  else "large"

/-- epsilon_squared of run_eda.py (the group count argument is unused by
the source formula). -/
def epsilonSquared (h : ℚ) (n : ℕ) (_k : ℕ) : ℚ :=
  h / ((n : ℚ) - 1)

/-- Pairwise-complete rows for two numeric fields: dropna over the pair. -/
def pairwiseNum (df : List ARow) (v1 v2 : ARow → Option ℚ) : List (ℚ × ℚ) :=
  df.filterMap (fun r =>
    match v1 r, v2 r with
    | some a, some b => some (a, b)
    | _, _ => none)

/-- run_spearman of run_eda.py, with the scipy rank-correlation kernel as
an explicit pure function argument. -/
def runSpearman (spearFn : List (ℚ × ℚ) → ℚ × ℚ) (df : List ARow)
    (v1 v2 : ARow → Option ℚ) : HypResult :=
  let data := pairwiseNum df v1 v2
  let rp := spearFn data
  ⟨data.length, rp.1, rp.2, "Spearman rho", rp.1, interpretRho rp.1⟩

/-- Pairwise-complete rows for a grouping field and a numeric outcome. -/
def pairwiseGroup (df : List ARow) (group : ARow → Option String)
    (outcome : ARow → Option ℚ) : List (String × ℚ) :=
  df.filterMap (fun r =>
    match group r, outcome r with
    | some g, some o => some (g, o)
    | _, _ => none)

/-- The per-group outcome lists formed by the groupby in run_kruskal,
keeping only non-empty groups as the source comprehension does. -/
def kruskalGroups (data : List (String × ℚ)) : List (List ℚ) :=
  (((data.map Prod.fst).dedup).map
    (fun k => (data.filter (fun p => p.1 == k)).map Prod.snd)).filter
    (fun g => decide (0 < g.length))

/-- run_kruskal of run_eda.py, with the scipy Kruskal-Wallis kernel as an
explicit pure function argument.  scipy.stats.kruskal raises when given
fewer than two groups; the raise is modelled as the error branch. -/
def runKruskal (kruskFn : List (List ℚ) → ℚ × ℚ) (df : List ARow)
    (group : ARow → Option String) (outcome : ARow → Option ℚ) :
    Except String HypResult :=
  let data := pairwiseGroup df group outcome
  let groups := kruskalGroups data
  if groups.length < 2 then
    .error "Need at least two groups in stats.kruskal()"
  else
    let hp := kruskFn groups
    .ok ⟨data.length, hp.1, hp.2, "epsilon_squared",
         epsilonSquared hp.1 data.length groups.length,
         interpretEpsilon (epsilonSquared hp.1 data.length groups.length)⟩

/-- Tabulate one hypothesis into a results row; the significance flag is
the derived p < 0.05 column. -/
def mkRecord (hid outc pred test : String) (r : HypResult) : HypRecord :=
  ⟨hid, outc, pred, test, r.n, r.statistic, r.pValue, r.effectSizeName,
   r.effectSizeValue, r.interpretation, decide (r.pValue < 5/100)⟩

/-- The fixed 5-hypothesis battery of run_eda.py over the analysis-included
rows, in source order.  The only failure point is the group-difference
test. -/
def analyze (spearFn : List (ℚ × ℚ) → ℚ × ℚ)
    (kruskFn : List (List ℚ) → ℚ × ℚ) (dfFull : List ARow) :
    Except String (List HypRecord) :=
  let df := dfFull.filter (fun r => r.includeFlag)
  match runKruskal kruskFn df (fun r => r.dailyTimeBand) (fun r => r.lowMoodFreq) with
  | .error e => .error e
  | .ok h1 =>
    let h2 := runSpearman spearFn df (fun r => r.purposelessUse) (fun r => r.lowMoodFreq)
    let h3 := runSpearman spearFn df (fun r => r.compareToSuccessful) (fun r => r.lowMoodFreq)
    let h4 := runSpearman spearFn df (fun r => r.seekValidation) (fun r => r.lowMoodFreq)
    let h5 := runSpearman spearFn df (fun r => r.restlessWithoutSm) (fun r => r.sleepIssues)
    .ok [mkRecord "H1" "low_mood_freq" "daily_time_band" "Kruskal-Wallis" h1,
         mkRecord "H2" "low_mood_freq" "purposeless_use" "Spearman" h2,
         mkRecord "H3" "low_mood_freq" "compare_to_successful" "Spearman" h3,
         mkRecord "H4" "low_mood_freq" "seek_validation" "Spearman" h4,
         mkRecord "H5" "sleep_issues" "restless_without_sm" "Spearman" h5]

/-- The jittered scatter coordinates of the H2 figure: each plotted point
is the Likert value plus a uniform draw from the seeded random stream.
Only the figures consume the stream. -/
def jitterScatter (rng : ℕ → ℚ) (df : List ARow) :
    List (Option ℚ × Option ℚ) :=
  df.enum.map (fun p =>
    (p.2.purposelessUse.map (fun x => x + rng p.1),
     p.2.lowMoodFreq.map (fun y => y + rng (df.length + p.1))))

/-- One Analyzer run: the hypothesis battery, then the figure rendering
with the random stream.  The stream is touched only after the battery. -/
def analyzerRun (spearFn : List (ℚ × ℚ) → ℚ × ℚ)
    (kruskFn : List (List ℚ) → ℚ × ℚ) (rng : ℕ → ℚ) (dfFull : List ARow) :
    Except String (List HypRecord × List (Option ℚ × Option ℚ)) :=
  match analyze spearFn kruskFn dfFull with
  | .error e => .error e
  | .ok recs => .ok (recs, jitterScatter rng (dfFull.filter (fun r => r.includeFlag)))

/-- The results component of one Analyzer run. -/
def runRecords (spearFn : List (ℚ × ℚ) → ℚ × ℚ)
    (kruskFn : List (List ℚ) → ℚ × ℚ) (rng : ℕ → ℚ) (dfFull : List ARow) :
    Option (List HypRecord) :=
  match analyzerRun spearFn kruskFn rng dfFull with
  | .ok p => some p.1
  | .error _ => none

/-! ### Segment guards (run_eda.py segment plots) -/

/-- Number of rows of a categorical column equal to a label, as counted by
value_counts. -/
def countEq (col : List String) (b : String) : ℕ :=
  (col.filter (fun x => x == b)).length

/-- The age bands admitted to the segment plot: the fixed band order
filtered by the minimum count of 10. -/
def validAgeBands (col : List String) : List String :=
  ["<18", "18-24", "25-34", "35-44", "45+"].filter
    (fun b => decide (10 ≤ countEq col b))

/-- The gender groups admitted to the segment plot: Male and Female
filtered by the minimum count of 10. -/
def validGenderGroups (col : List String) : List String :=
  ["Male", "Female"].filter (fun g => decide (10 ≤ countEq col g))

/-! ### Concrete inputs used by the witnesses and counterexamples -/

/-- A well-formed raw row: age 22, gender Female, uses social media,
Instagram and YouTube, university affiliation, 2-3 hours, all Likert 3. -/
def sampleRaw : RawRow :=
  { ageRaw := .numText 22
    genderRaw := some "Female"
    usesSmRaw := some "Yes"
    platformsRaw := some "Instagram, YouTube"
    affilsRaw := some "University"
    timeBandRaw := some "Between 2 and 3 hours"
    relationshipStatus := some "Single"
    occupationStatus := some "University Student"
    likertRaw := [.num 3, .num 3, .num 3, .num 3, .num 3, .num 3,
                  .num 3, .num 3, .num 3, .num 3, .num 3, .num 3] }

/-- The cleaned rows produced from the sample raw row. -/
def sampleCleanRows : List CleanRow :=
  match runEtl [sampleRaw] with
  | .ok rows => rows
  | .error _ => []

/-- The cleaned row produced from the sample raw row. -/
def sampleCleanRow : CleanRow :=
  sampleCleanRows.headD (createAnalysisFlag (toCleanRow (midRow sampleRaw) []))

/-- A raw row whose last Likert column holds 6, out of range above. -/
def rawRowSix : RawRow :=
  { sampleRaw with
    likertRaw := [.num 3, .num 3, .num 3, .num 3, .num 3, .num 3,
                  .num 3, .num 3, .num 3, .num 3, .num 3, .num 6] }

/-- A raw row whose first Likert column holds the non-integral in-range
value 3.5 and whose last Likert column holds the out-of-range value 6. -/
def rawRowMixed : RawRow :=
  { sampleRaw with
    likertRaw := [.num (mkRat 7 2), .num 3, .num 3, .num 3, .num 3, .num 3,
                  .num 3, .num 3, .num 3, .num 3, .num 3, .num 6] }

/-- A two-row analyzer table whose rows share one time-band group. -/
def oneGroupDf : List ARow :=
  [⟨some "Between 1 and 2 hours", some 2, some 3, some 2, some 3, some 2, some 3, true⟩,
   ⟨some "Between 1 and 2 hours", some 4, some 3, some 2, some 3, some 5, some 3, true⟩]

/-- A two-row analyzer table with two distinct time-band groups. -/
def twoGroupDf : List ARow :=
  [⟨some "Less than an Hour", some 2, some 3, some 2, some 3, some 2, some 3, true⟩,
   ⟨some "More than 5 hours", some 4, some 3, some 2, some 3, some 5, some 3, true⟩]

/-- Constant statistic kernels used to instantiate the analyzer when a
concrete run is needed. -/
def constSpear : List (ℚ × ℚ) → ℚ × ℚ := fun _ => (0, 0)

/-- Constant Kruskal-Wallis kernel for concrete runs. -/
def constKrusk : List (List ℚ) → ℚ × ℚ := fun _ => (0, 0)

/-- The records produced by a concrete analyzer run on the two-group
table. -/
def twoGroupRecs : List HypRecord :=
  match analyze constSpear constKrusk twoGroupDf with
  | .ok recs => recs
  | .error _ => []

/-- An age-band column with eleven members of one band. -/
def elevenBands : List String := List.replicate 11 "18-24"

/-! ## Helper lemmas -/

/-- The empty pattern occurs in every haystack, as the Python `in`
operator treats the empty string. -/
theorem containsSub_nil : ∀ hay : List Char, containsSub [] hay = true
  | [] => rfl
  | _ :: _ => rfl

/-- A list starts with itself padded on the right. -/
theorem listStarts_append : ∀ (pat b : List Char), listStarts (pat ++ b) pat = true
  | [], b => by cases b <;> rfl
  | c :: cs, b => by
    show (c == c && listStarts (cs ++ b) cs) = true
    simp [listStarts_append cs b]

/-- Containment is preserved by extending the haystack on the left. -/
theorem containsSub_append_left (pat : List Char) :
    ∀ (a hay : List Char), containsSub pat hay = true →
      containsSub pat (a ++ hay) = true
  | [], _, h => h
  | c :: a, hay, h => by
    simp [containsSub]
    right
    exact containsSub_append_left pat a hay h

/-- A pattern occurs in itself padded on the right. -/
theorem containsSub_self (pat b : List Char) :
    containsSub pat (pat ++ b) = true := by
  cases pat with
  | nil => exact containsSub_nil b
  | cons c cs =>
    simp [containsSub]
    left
    exact listStarts_append (c :: cs) b

/-- Appending strings concatenates their character lists. -/
theorem strToList_append (a b : String) : (a ++ b).toList = a.toList ++ b.toList := rfl

/-- A string occurs in any string built around it. -/
theorem strContains_mid (a name b : String) :
    strContains (a ++ name ++ b) name = true := by
  unfold strContains
  rw [strToList_append, strToList_append, List.append_assoc]
  exact containsSub_append_left name.toList a.toList _ (containsSub_self name.toList b.toList)

/-- A key absent from the table looks up to nothing. -/
theorem alookup_eq_none_of_not_mem {α : Type} (m : List (String × α)) (k : String)
    (h : k ∉ m.map Prod.fst) : alookup m k = none := by
  induction m with
  | nil => rfl
  | cons p rest ih =>
    simp only [List.map_cons, List.mem_cons, not_or] at h
    simp [alookup, h.1, ih h.2]

/-! ## Claim theorems: field transforms -/

/-- Claim C4 (amended): in age normalisation every non-numeric raw value
becomes missing (null age, band "Unknown"), while numeric values are never
rejected or nulled: each is retained as its rounded integer regardless of
range. -/
theorem c4_age_normalisation :
    (∀ s : String, cleanAgeStored (.text s) = none ∧ cleanAgeBand (.text s) = "Unknown")
    ∧ (cleanAgeStored .na = none ∧ cleanAgeBand .na = "Unknown")
    ∧ (∀ q : ℚ, cleanAgeStored (.num q) = some (roundHalfEven q)
        ∧ cleanAgeStored (.numText q) = some (roundHalfEven q)) :=
  ⟨fun _ => ⟨rfl, rfl⟩, ⟨rfl, rfl⟩, fun _ => ⟨rfl, rfl⟩⟩

/-- Claim C4, counterexample to the claim as stated: the numeric age -5 is
outside any admissible range (the data dictionary documents 1-100+), yet
clean_age stores it as the non-null integer -5 with band "<18" instead of
making it missing. -/
theorem c4_counterexample :
    ((-5 : ℚ) < 1)
    ∧ cleanAgeStored (.num (-5)) = some (-5)
    ∧ cleanAgeStored (.num (-5)) ≠ none
    ∧ cleanAgeBand (.num (-5)) = "<18" := by decide

/-- Claim C5: the derived affil_na flag (position 5 of the affiliation flag
columns) equals 1 for every input cell: a missing cell matches because the
"na" bucket lists the empty string, and every present cell matches because
the empty string is a substring of every string. -/
theorem c5_affil_na_flag :
    ∀ val : Option String, (affilFlagsOf val).getD 5 0 = 1 := by
  intro val
  cases val with
  | none => decide
  | some s =>
    have hc : strContains (pyLower (pyStrip s)) (pyLower "") = true := by
      show containsSub ([] : List Char) (pyLower (pyStrip s)).toList = true
      exact containsSub_nil _
    have ha : (["N/A", "NA", ""].any
        (fun v => strContains (pyLower (pyStrip s)) (pyLower v))) = true :=
      List.any_eq_true.2 ⟨"", by decide, hc⟩
    show hasAffiliation ["N/A", "NA", ""] (some s) = 1
    simp [hasAffiliation, ha]

/-- Claim C6: gender normalisation is insensitive to case and surrounding
whitespace (it depends only on the stripped lowercase text), idempotent on
the closed output category set, sends unmatched present text to "Other"
(never to a missing value), and sends missing input to
"Prefer not to say". -/
theorem c6_gender_normalisation :
    normaliseGender none = "Prefer not to say"
    ∧ (∀ v ∈ ["Male", "Female", "Non-binary", "Trans", "Unsure", "Other",
              "Prefer not to say"], normaliseGender (some v) = v)
    ∧ (∀ s : String, alookup GENDER_NORMALISATION (pyCanon s) = none →
        normaliseGender (some s) = "Other")
    ∧ (∀ s t : String, pyCanon s = pyCanon t →
        normaliseGender (some s) = normaliseGender (some t)) := by
  refine ⟨rfl, by decide, ?_, ?_⟩
  · intro s h
    simp [normaliseGender, h]
  · intro s t h
    simp [normaliseGender, h]

/-- Witness for the gender-normalisation claim at concrete inputs. -/
theorem c6_witness :
    normaliseGender (some "xyzzy") = "Other"
    ∧ normaliseGender (some " MALE ") = normaliseGender (some "male")
    ∧ normaliseGender (some "Non-binary") = "Non-binary" :=
  ⟨c6_gender_normalisation.2.2.1 "xyzzy" (by decide),
   c6_gender_normalisation.2.2.2 " MALE " "male" (by decide),
   c6_gender_normalisation.2.1 "Non-binary" (by decide)⟩

/-- Claim C7: the time-band midpoint mapping is total over the 6 known
labels with image exactly the six half-hour midpoints, every other label
maps to an undefined midpoint, the column transform is total (no raise, one
output per input cell), and every unmapped present label is recorded among
the warned values. -/
theorem c7_time_midpoint :
    (alookup TIME_BAND_MIDPOINTS "Less than an Hour" = some (mkRat 1 2)
     ∧ alookup TIME_BAND_MIDPOINTS "Between 1 and 2 hours" = some (mkRat 3 2)
     ∧ alookup TIME_BAND_MIDPOINTS "Between 2 and 3 hours" = some (mkRat 5 2)
     ∧ alookup TIME_BAND_MIDPOINTS "Between 3 and 4 hours" = some (mkRat 7 2)
     ∧ alookup TIME_BAND_MIDPOINTS "Between 4 and 5 hours" = some (mkRat 9 2)
     ∧ alookup TIME_BAND_MIDPOINTS "More than 5 hours" = some (mkRat 11 2))
    ∧ (∀ s : String, s ∉ TIME_BAND_MIDPOINTS.map Prod.fst →
        alookup TIME_BAND_MIDPOINTS s = none)
    ∧ (∀ col : List (Option String), (createTimeMidpoint col).1.length = col.length)
    ∧ (∀ (col : List (Option String)) (s : String), some s ∈ col →
        alookup TIME_BAND_MIDPOINTS s = none → s ∈ (createTimeMidpoint col).2) := by
  refine ⟨by decide, ?_, ?_, ?_⟩
  · intro s h
    exact alookup_eq_none_of_not_mem TIME_BAND_MIDPOINTS s h
  · intro col
    simp [createTimeMidpoint]
  · intro col s hmem hnone
    show s ∈ ((col.filterMap id).filter
      (fun b => (alookup TIME_BAND_MIDPOINTS b).isNone)).dedup
    rw [List.mem_dedup, List.mem_filter]
    refine ⟨List.mem_filterMap.2 ⟨some s, hmem, rfl⟩, ?_⟩
    rw [hnone]
    rfl

/-- Witness for the time-midpoint claim at a concrete unknown label. -/
theorem c7_witness :
    alookup TIME_BAND_MIDPOINTS "7 hours" = none
    ∧ "7 hours" ∈ (createTimeMidpoint [some "7 hours", some "Less than an Hour"]).2 :=
  ⟨c7_time_midpoint.2.1 "7 hours" (by decide),
   c7_time_midpoint.2.2.2 [some "7 hours", some "Less than an Hour"] "7 hours"
     (by decide) (by decide)⟩

/-- Claim C8: platform_count is the sum of the 9 platform flags, there are
exactly 9 flags, each flag is 0 or 1 (derived by case-insensitive substring
containment), and a missing multi-select cell gives all flags 0 and count
0. -/
theorem c8_platform_flags :
    ∀ val : Option String,
      platformCountOf val = (platformFlagsOf val).sum
      ∧ (platformFlagsOf val).length = 9
      ∧ (∀ f ∈ platformFlagsOf val, f ≤ 1)
      ∧ platformFlagsOf none = List.replicate 9 0
      ∧ platformCountOf none = 0 := by
  intro val
  refine ⟨rfl, by simp [platformFlagsOf, PLATFORMS], ?_, by decide, by decide⟩
  intro f hf
  rcases List.mem_map.1 hf with ⟨p, _, rfl⟩
  cases val with
  | none => exact Nat.zero_le 1
  | some s =>
    show (if strContains (pyLower s) (pyLower p) = true then 1 else 0) ≤ 1
    split <;> decide

/-- Witness for the platform-flag claim at a concrete multi-select cell. -/
theorem c8_witness :
    1 ∈ platformFlagsOf (some "Instagram, YouTube") ∧ (1 : ℕ) ≤ 1 :=
  ⟨by decide,
   (c8_platform_flags (some "Instagram, YouTube")).2.2.1 1 (by decide)⟩

/-! ## Claim theorems: analyzer -/

/-- Claim C3: the group-difference test requires at least 2 non-empty
groups among the pairwise-complete rows, and when fewer are present the
operation fails with the guard error rather than computing anything. -/
theorem c3_kruskal_guard :
    ∀ (kruskFn : List (List ℚ) → ℚ × ℚ) (df : List ARow)
      (group : ARow → Option String) (outcome : ARow → Option ℚ),
      ((pairwiseGroup df group outcome).map Prod.fst).dedup.length < 2 →
      runKruskal kruskFn df group outcome =
        .error "Need at least two groups in stats.kruskal()" := by
  intro kf df g o h
  have hle : (kruskalGroups (pairwiseGroup df g o)).length ≤
      ((pairwiseGroup df g o).map Prod.fst).dedup.length := by
    unfold kruskalGroups
    exact le_trans (List.length_filter_le _ _) (le_of_eq (List.length_map _ _))
  simp only [runKruskal]
  rw [if_pos (lt_of_le_of_lt hle h)]

/-- Witness for the group-difference guard on a one-group table. -/
theorem c3_witness :
    ((pairwiseGroup oneGroupDf (fun r => r.dailyTimeBand)
        (fun r => r.lowMoodFreq)).map Prod.fst).dedup.length < 2
    ∧ runKruskal constKrusk oneGroupDf (fun r => r.dailyTimeBand)
        (fun r => r.lowMoodFreq) =
      .error "Need at least two groups in stats.kruskal()" :=
  ⟨by decide,
   c3_kruskal_guard constKrusk oneGroupDf (fun r => r.dailyTimeBand)
     (fun r => r.lowMoodFreq) (by decide)⟩

/-- Claim C10: the hypothesis-results component of an analyzer run does not
depend on the random stream (randomness reaches only the jittered figure
coordinates), so re-running with any two streams yields identical
HypothesisResult records, and a successful battery always yields the 5
hypothesis records. -/
theorem c10_determinism :
    ∀ (spearFn : List (ℚ × ℚ) → ℚ × ℚ) (kruskFn : List (List ℚ) → ℚ × ℚ)
      (rngA rngB : ℕ → ℚ) (dfFull : List ARow),
      runRecords spearFn kruskFn rngA dfFull = runRecords spearFn kruskFn rngB dfFull
      ∧ (∀ recs, analyze spearFn kruskFn dfFull = .ok recs → recs.length = 5) := by
  intro sp kr rA rB df
  constructor
  · unfold runRecords analyzerRun
    cases h : analyze sp kr df <;> simp [h]
  · intro recs h
    simp only [analyze] at h
    rcases hk : runKruskal kr (df.filter (fun r => r.includeFlag))
        (fun r => r.dailyTimeBand) (fun r => r.lowMoodFreq) with e | h1
    · rw [hk] at h
      exact absurd h (by simp)
    · rw [hk] at h
      simp only [] at h
      injection h with h2
      rw [← h2]
      rfl

/-- Witness for the analyzer determinism claim on a concrete table. -/
theorem c10_witness :
    runRecords constSpear constKrusk (fun _ => (0 : ℚ)) twoGroupDf
      = runRecords constSpear constKrusk (fun _ => (1 : ℚ)) twoGroupDf
    ∧ twoGroupRecs.length = 5 :=
  ⟨(c10_determinism constSpear constKrusk (fun _ => (0 : ℚ)) (fun _ => (1 : ℚ)) twoGroupDf).1,
   (c10_determinism constSpear constKrusk (fun _ => (0 : ℚ)) (fun _ => (1 : ℚ)) twoGroupDf).2
     twoGroupRecs rfl⟩

/-! ## Claim theorems: segment guards -/

/-- Claim C9: every subgroup admitted to a segment breakdown (age band or
gender group) has at least 10 members in the analysed column. -/
theorem c9_segment_minimum :
    (∀ (col : List String) (b : String), b ∈ validAgeBands col → 10 ≤ countEq col b)
    ∧ (∀ (col : List String) (g : String), g ∈ validGenderGroups col → 10 ≤ countEq col g) := by
  refine ⟨?_, ?_⟩ <;> intro col x hx
  · exact of_decide_eq_true (List.mem_filter.1 hx).2
  · exact of_decide_eq_true (List.mem_filter.1 hx).2

/-- Witness for the segment minimum-count claim on a concrete column. -/
theorem c9_witness :
    "18-24" ∈ validAgeBands elevenBands ∧ 10 ≤ countEq elevenBands "18-24" :=
  ⟨by decide, c9_segment_minimum.1 elevenBands "18-24" (by decide)⟩

/-! ## Helper lemmas for Likert validation -/

/-- The column minimum of a non-empty list exists. -/
theorem listMinQ_cons_ne_none (q : ℚ) (qs : List ℚ) : listMinQ (q :: qs) ≠ none := by
  unfold listMinQ
  cases listMinQ qs <;> simp

/-- The column minimum is a member and a lower bound. -/
theorem listMinQ_spec : ∀ (l : List ℚ) (m : ℚ), listMinQ l = some m →
    m ∈ l ∧ ∀ q ∈ l, m ≤ q := by
  intro l
  induction l with
  | nil => intro m h; cases h
  | cons q qs ih =>
    intro m h
    unfold listMinQ at h
    cases hq : listMinQ qs with
    | none =>
      rw [hq] at h
      injection h with h2
      subst h2
      have hnil : qs = [] := by
        cases qs with
        | nil => rfl
        | cons a as => exact absurd hq (listMinQ_cons_ne_none a as)
      subst hnil
      exact ⟨List.mem_singleton.2 rfl, fun x hx => le_of_eq (List.mem_singleton.1 hx).symm⟩
    | some m' =>
      rw [hq] at h
      injection h with h2
      subst h2
      rcases ih m' hq with ⟨hmem, hlb⟩
      by_cases hc : q ≤ m'
      · rw [if_pos hc]
        refine ⟨List.mem_cons_self q qs, ?_⟩
        intro x hx
        rcases List.mem_cons.1 hx with rfl | hx'
        · exact le_refl x
        · exact le_trans hc (hlb x hx')
      · rw [if_neg hc]
        refine ⟨List.mem_cons_of_mem q hmem, ?_⟩
        intro x hx
        rcases List.mem_cons.1 hx with rfl | hx'
        · exact le_of_not_le hc
        · exact hlb x hx'

/-- The column maximum of a non-empty list exists. -/
theorem listMaxQ_cons_ne_none (q : ℚ) (qs : List ℚ) : listMaxQ (q :: qs) ≠ none := by
  unfold listMaxQ
  cases listMaxQ qs <;> simp

/-- The column maximum is a member and an upper bound. -/
theorem listMaxQ_spec : ∀ (l : List ℚ) (m : ℚ), listMaxQ l = some m →
    m ∈ l ∧ ∀ q ∈ l, q ≤ m := by
  intro l
  induction l with
  | nil => intro m h; cases h
  | cons q qs ih =>
    intro m h
    unfold listMaxQ at h
    cases hq : listMaxQ qs with
    | none =>
      rw [hq] at h
      injection h with h2
      subst h2
      have hnil : qs = [] := by
        cases qs with
        | nil => rfl
        | cons a as => exact absurd hq (listMaxQ_cons_ne_none a as)
      subst hnil
      exact ⟨List.mem_singleton.2 rfl, fun x hx => le_of_eq (List.mem_singleton.1 hx)⟩
    | some m' =>
      rw [hq] at h
      injection h with h2
      subst h2
      rcases ih m' hq with ⟨hmem, hub⟩
      by_cases hc : m' ≤ q
      · rw [if_pos hc]
        refine ⟨List.mem_cons_self q qs, ?_⟩
        intro x hx
        rcases List.mem_cons.1 hx with rfl | hx'
        · exact le_refl x
        · exact le_trans (hub x hx') hc
      · rw [if_neg hc]
        refine ⟨List.mem_cons_of_mem q hmem, ?_⟩
        intro x hx
        rcases List.mem_cons.1 hx with rfl | hx'
        · exact le_of_not_le hc
        · exact hub x hx'

/-- The below-1 guard fires exactly when a present value is below 1. -/
theorem colMinBad_true_iff (l : List ℚ) : colMinBad l = true ↔ ∃ q ∈ l, q < 1 := by
  unfold colMinBad
  cases h : listMinQ l with
  | none =>
    have hnil : l = [] := by
      cases l with
      | nil => rfl
      | cons a as => exact absurd h (listMinQ_cons_ne_none a as)
    subst hnil
    simp
  | some m =>
    rcases listMinQ_spec l m h with ⟨hmem, hlb⟩
    simp only [decide_eq_true_eq]
    exact ⟨fun hm => ⟨m, hmem, hm⟩,
           fun ⟨q, hq, hlt⟩ => lt_of_le_of_lt (hlb q hq) hlt⟩

/-- The above-5 guard fires exactly when a present value is above 5. -/
theorem colMaxBad_true_iff (l : List ℚ) : colMaxBad l = true ↔ ∃ q ∈ l, 5 < q := by
  unfold colMaxBad
  cases h : listMaxQ l with
  | none =>
    have hnil : l = [] := by
      cases l with
      | nil => rfl
      | cons a as => exact absurd h (listMaxQ_cons_ne_none a as)
    subst hnil
    simp
  | some m =>
    rcases listMaxQ_spec l m h with ⟨hmem, hub⟩
    simp only [decide_eq_true_eq]
    exact ⟨fun hm => ⟨m, hmem, hm⟩,
           fun ⟨q, hq, hgt⟩ => lt_of_lt_of_le hgt (hub q hq)⟩

/-- The Int64 conversion succeeds on a column of integral cells. -/
theorem astypeInt64_ok : ∀ vals : List (Option ℚ),
    (∀ o ∈ vals, integralOpt o = true) → ∃ out, astypeInt64 vals = .ok out := by
  intro vals
  induction vals with
  | nil => intro _; exact ⟨[], rfl⟩
  | cons o rest ih =>
    intro h
    rcases ih (fun x hx => h x (List.mem_cons_of_mem o hx)) with ⟨out, hout⟩
    cases o with
    | none =>
      refine ⟨none :: out, ?_⟩
      simp only [astypeInt64]
      rw [hout]
    | some q =>
      have hq : q.den = 1 := by
        have hin := h (some q) (List.mem_cons_self _ _)
        simpa [integralOpt] using hin
      refine ⟨some q.num :: out, ?_⟩
      simp only [astypeInt64]
      rw [if_pos hq, hout]

/-- A column with a present out-of-range value fails its range check with
one of the two range messages for that column. -/
theorem checkCol_error_of_offend (name : String) (vals : List (Option ℚ))
    (h : ∃ q ∈ vals.filterMap id, q < 1 ∨ 5 < q) :
    checkCol name vals = .error (belowMsg name)
    ∨ checkCol name vals = .error (aboveMsg name) := by
  by_cases hb : ∃ q ∈ vals.filterMap id, q < 1
  · left
    unfold checkCol
    rw [if_pos ((colMinBad_true_iff _).2 hb)]
  · have ha : ∃ q ∈ vals.filterMap id, 5 < q := by
      rcases h with ⟨q, hq, hlt | hgt⟩
      · exact absurd ⟨q, hq, hlt⟩ hb
      · exact ⟨q, hq, hgt⟩
    right
    unfold checkCol
    have hmin : ¬ (colMinBad (vals.filterMap id) = true) :=
      fun hc => hb ((colMinBad_true_iff _).1 hc)
    rw [if_neg hmin, if_pos ((colMaxBad_true_iff _).2 ha)]

/-- A column whose present values are all in range and integral passes. -/
theorem checkCol_ok_of_good (name : String) (vals : List (Option ℚ))
    (hgood : ∀ q ∈ vals.filterMap id, 1 ≤ q ∧ q ≤ 5)
    (hint : ∀ o ∈ vals, integralOpt o = true) :
    ∃ out, checkCol name vals = .ok out := by
  rcases astypeInt64_ok vals hint with ⟨out, hout⟩
  refine ⟨out, ?_⟩
  have hmin : ¬ (colMinBad (vals.filterMap id) = true) := by
    intro hc
    rcases (colMinBad_true_iff _).1 hc with ⟨q, hq, hlt⟩
    exact absurd hlt (not_lt.2 (hgood q hq).1)
  have hmax : ¬ (colMaxBad (vals.filterMap id) = true) := by
    intro hc
    rcases (colMaxBad_true_iff _).1 hc with ⟨q, hq, hgt⟩
    exact absurd hgt (not_lt.2 (hgood q hq).2)
  unfold checkCol
  rw [if_neg hmin, if_neg hmax]
  exact hout

/-- Some column with an offender makes the validation loop abort. -/
theorem validateCols_error_of_offend :
    ∀ (pairs : List (String × ℕ)) (t : List MidRow),
      (∃ p ∈ pairs, ∃ q ∈ (likertColVals t p.2).filterMap id, q < 1 ∨ 5 < q) →
      ∃ e, validateCols pairs t = .error e := by
  intro pairs
  induction pairs with
  | nil =>
    intro t h
    rcases h with ⟨p, hp, _⟩
    cases hp
  | cons p rest ih =>
    intro t h
    rcases hc : checkCol p.1 (likertColVals t p.2) with e | c
    · refine ⟨e, ?_⟩
      simp only [validateCols]
      rw [hc]
    · have hnop : ¬ ∃ q ∈ (likertColVals t p.2).filterMap id, q < 1 ∨ 5 < q := by
        intro hoff
        rcases checkCol_error_of_offend p.1 _ hoff with he | he <;> rw [he] at hc <;> cases hc
      have hrest : ∃ p' ∈ rest, ∃ q ∈ (likertColVals t p'.2).filterMap id, q < 1 ∨ 5 < q := by
        rcases h with ⟨p', hp', hoff⟩
        rcases List.mem_cons.1 hp' with rfl | hmem
        · exact absurd hoff hnop
        · exact ⟨p', hmem, hoff⟩
      rcases ih t hrest with ⟨e, he⟩
      refine ⟨e, ?_⟩
      simp only [validateCols]
      rw [hc, he]

/-- With every column integral, an offender makes the validation loop abort
with a range message that names an offending column. -/
theorem validateCols_names_offend :
    ∀ (pairs : List (String × ℕ)) (t : List MidRow),
      (∀ p ∈ pairs, ∀ o ∈ likertColVals t p.2, integralOpt o = true) →
      (∃ p ∈ pairs, ∃ q ∈ (likertColVals t p.2).filterMap id, q < 1 ∨ 5 < q) →
      ∃ p ∈ pairs,
        (∃ q ∈ (likertColVals t p.2).filterMap id, q < 1 ∨ 5 < q)
        ∧ (validateCols pairs t = .error (belowMsg p.1)
           ∨ validateCols pairs t = .error (aboveMsg p.1)) := by
  intro pairs
  induction pairs with
  | nil =>
    intro t _ h
    rcases h with ⟨p, hp, _⟩
    cases hp
  | cons p rest ih =>
    intro t hint h
    by_cases hp : ∃ q ∈ (likertColVals t p.2).filterMap id, q < 1 ∨ 5 < q
    · refine ⟨p, List.mem_cons_self _ _, hp, ?_⟩
      rcases checkCol_error_of_offend p.1 _ hp with he | he
      · left
        simp only [validateCols]
        rw [he]
      · right
        simp only [validateCols]
        rw [he]
    · have hgood : ∀ q ∈ (likertColVals t p.2).filterMap id, 1 ≤ q ∧ q ≤ 5 := by
        intro q hq
        constructor
        · by_contra hlt
          exact hp ⟨q, hq, Or.inl (not_le.1 hlt)⟩
        · by_contra hgt
          exact hp ⟨q, hq, Or.inr (not_le.1 hgt)⟩
      rcases checkCol_ok_of_good p.1 _ hgood (hint p (List.mem_cons_self _ _)) with ⟨out, hok⟩
      have hrest : ∃ p' ∈ rest, ∃ q ∈ (likertColVals t p'.2).filterMap id, q < 1 ∨ 5 < q := by
        rcases h with ⟨p', hp', hoff⟩
        rcases List.mem_cons.1 hp' with rfl | hmem
        · exact absurd hoff hp
        · exact ⟨p', hmem, hoff⟩
      rcases ih t (fun p' hp' => hint p' (List.mem_cons_of_mem p hp')) hrest with
        ⟨p', hp', hoff', herr'⟩
      refine ⟨p', List.mem_cons_of_mem p hp', hoff', ?_⟩
      rcases herr' with he | he
      · left
        simp only [validateCols]
        rw [hok, he]
      · right
        simp only [validateCols]
        rw [hok, he]

/-- The earlier per-row transforms do not touch the raw Likert cells. -/
theorem likertColVals_midRow (t : List RawRow) (i : ℕ) :
    likertColVals (t.map midRow) i
      = t.map (fun r => toNumeric (r.likertRaw.getD i .na)) := by
  unfold likertColVals
  rw [List.map_map]
  rfl

/-- A raw out-of-range Likert cell is the same thing as an out-of-range
present value of the coerced column. -/
theorem offend_transfer (t : List RawRow) (i : ℕ) :
    (∃ r ∈ t, offendVal (r.likertRaw.getD i .na) = true) ↔
    (∃ q ∈ (likertColVals (t.map midRow) i).filterMap id, q < 1 ∨ 5 < q) := by
  rw [likertColVals_midRow]
  constructor
  · rintro ⟨r, hr, hoff⟩
    unfold offendVal offendOpt at hoff
    rcases hv : toNumeric (r.likertRaw.getD i .na) with _ | q
    · rw [hv] at hoff
      cases hoff
    · rw [hv] at hoff
      refine ⟨q, ?_, of_decide_eq_true hoff⟩
      exact List.mem_filterMap.2 ⟨some q, List.mem_map.2 ⟨r, hr, by rw [hv]⟩, rfl⟩
  · rintro ⟨q, hq, hoff⟩
    rcases List.mem_filterMap.1 hq with ⟨o, ho, hid⟩
    rcases List.mem_map.1 ho with ⟨r, hr, hro⟩
    simp only [id_eq] at hid
    refine ⟨r, hr, ?_⟩
    show offendOpt (toNumeric (r.likertRaw.getD i .na)) = true
    rw [hro.trans hid]
    show decide (q < 1 ∨ 5 < q) = true
    exact decide_eq_true hoff

/-- A row whose raw Likert cells are all integral yields integral coerced
cells at every position. -/
theorem integral_getD : ∀ (l : List RawVal) (i : ℕ),
    l.all integralVal = true → integralOpt (toNumeric (l.getD i .na)) = true := by
  intro l
  induction l with
  | nil => intro i _; rfl
  | cons v l ih =>
    intro i h
    rw [List.all_cons, Bool.and_eq_true] at h
    cases i with
    | zero =>
      rw [List.getD_cons_zero]
      exact h.1
    | succ i =>
      rw [List.getD_cons_succ]
      exact ih i h.2

/-- The pipeline aborts with a given message exactly when the validation
loop does: everything after the gate runs only on its success, and nothing
before it can fail. -/
theorem runEtl_error_iff (t : List RawRow) (e : String) :
    runEtl t = .error e ↔ validateCols likertPairs (t.map midRow) = .error e := by
  unfold runEtl validateLikert
  cases h : validateCols likertPairs (t.map midRow) <;> simp

/-! ## Claim theorems: Likert validation and analysis flag -/

/-- Claim C1 (amended): whenever some present Likert value is outside
[1,5], the Recoder aborts before writing any cleaned-table output; if
moreover every present Likert value is integral (so that the Int64
conversion of an earlier column cannot raise first), the error is a
range-validation message naming an offending column. -/
theorem c1_likert_validation :
    ∀ t : List RawRow,
      (∃ p ∈ likertPairs, ∃ r ∈ t, offendVal (r.likertRaw.getD p.2 .na) = true) →
      (∃ e, runEtl t = .error e) ∧ emittedTable t = none
      ∧ ((∀ r ∈ t, r.likertRaw.all integralVal = true) →
          ∃ p ∈ likertPairs,
            (∃ r ∈ t, offendVal (r.likertRaw.getD p.2 .na) = true)
            ∧ (runEtl t = .error (belowMsg p.1) ∨ runEtl t = .error (aboveMsg p.1))
            ∧ (∃ e, runEtl t = .error e ∧ strContains e p.1 = true)) := by
  intro t hoff
  have hoffm : ∃ p ∈ likertPairs,
      ∃ q ∈ (likertColVals (t.map midRow) p.2).filterMap id, q < 1 ∨ 5 < q := by
    rcases hoff with ⟨p, hp, hr⟩
    exact ⟨p, hp, (offend_transfer t p.2).1 hr⟩
  rcases validateCols_error_of_offend likertPairs (t.map midRow) hoffm with ⟨e, he⟩
  have hrun : runEtl t = .error e := (runEtl_error_iff t e).2 he
  refine ⟨⟨e, hrun⟩, ?_, ?_⟩
  · unfold emittedTable
    rw [hrun]
  · intro hint
    have hintm : ∀ p ∈ likertPairs, ∀ o ∈ likertColVals (t.map midRow) p.2,
        integralOpt o = true := by
      intro p hp o ho
      rw [likertColVals_midRow] at ho
      rcases List.mem_map.1 ho with ⟨r, hr, rfl⟩
      exact integral_getD r.likertRaw p.2 (hint r hr)
    rcases validateCols_names_offend likertPairs (t.map midRow) hintm hoffm with
      ⟨p, hp, hpoff, herr⟩
    refine ⟨p, hp, (offend_transfer t p.2).2 hpoff, ?_, ?_⟩
    · rcases herr with he2 | he2
      · exact Or.inl ((runEtl_error_iff t _).2 he2)
      · exact Or.inr ((runEtl_error_iff t _).2 he2)
    · rcases herr with he2 | he2
      · exact ⟨belowMsg p.1, (runEtl_error_iff t _).2 he2,
          strContains_mid "Likert column " p.1 " has value below 1"⟩
      · exact ⟨aboveMsg p.1, (runEtl_error_iff t _).2 he2,
          strContains_mid "Likert column " p.1 " has value above 5"⟩

/-- Claim C1, counterexample to the claim as stated: in the mixed table the
only Likert column with a present out-of-range value is sleep_issues, yet
the Recoder aborts with the pandas safe-cast error raised while converting
the earlier purposeless_use column (whose 3.5 is in range), so the raised
error is not a range-validation message and does not name the offending
column. -/
theorem c1_counterexample :
    offendVal (rawRowMixed.likertRaw.getD 11 .na) = true
    ∧ ("sleep_issues", 11) ∈ likertPairs
    ∧ (∀ p ∈ likertPairs, p.2 ≠ 11 →
        ∀ r ∈ [rawRowMixed], offendVal (r.likertRaw.getD p.2 .na) = false)
    ∧ runEtl [rawRowMixed] = .error castMsg
    ∧ castMsg ≠ belowMsg "sleep_issues"
    ∧ castMsg ≠ aboveMsg "sleep_issues"
    ∧ strContains castMsg "sleep_issues" = false :=
  ⟨by decide, by decide, by decide, by rfl, by decide, by decide, by decide⟩

/-- Witness for the amended Likert-validation claim at the table whose
sleep_issues cell holds 6. -/
theorem c1_witness :
    (∃ p ∈ likertPairs, ∃ r ∈ [rawRowSix], offendVal (r.likertRaw.getD p.2 .na) = true)
    ∧ ((∃ e, runEtl [rawRowSix] = .error e) ∧ emittedTable [rawRowSix] = none
        ∧ ((∀ r ∈ [rawRowSix], r.likertRaw.all integralVal = true) →
            ∃ p ∈ likertPairs,
              (∃ r ∈ [rawRowSix], offendVal (r.likertRaw.getD p.2 .na) = true)
              ∧ (runEtl [rawRowSix] = .error (belowMsg p.1)
                 ∨ runEtl [rawRowSix] = .error (aboveMsg p.1))
              ∧ (∃ e, runEtl [rawRowSix] = .error e ∧ strContains e p.1 = true))) :=
  ⟨by decide, c1_likert_validation [rawRowSix] (by decide)⟩

/-- Claim C2: in every emitted cleaned table the include_in_analysis flag
of a row is true exactly when its tri-state uses_social_media boolean is
exactly true; both the false and the missing state yield false. -/
theorem c2_include_flag :
    ∀ (t : List RawRow) (rows : List CleanRow), runEtl t = .ok rows →
      ∀ row ∈ rows, (row.includeInAnalysis = true ↔ row.usesSm = some true) := by
  intro t rows h row hrow
  unfold runEtl at h
  rcases hv : validateLikert (t.map midRow) with e | cleaned
  · rw [hv] at h
    simp at h
  · rw [hv] at h
    simp only [] at h
    injection h with h2
    subst h2
    rcases List.mem_map.1 hrow with ⟨r, _, rfl⟩
    show ((r.usesSm == some true) = true ↔ r.usesSm = some true)
    exact beq_iff_eq

/-- Witness for the analysis-flag claim at the sample row. -/
theorem c2_witness :
    runEtl [sampleRaw] = .ok [sampleCleanRow]
    ∧ (sampleCleanRow.includeInAnalysis = true ↔ sampleCleanRow.usesSm = some true) :=
  ⟨rfl, c2_include_flag [sampleRaw] [sampleCleanRow] rfl sampleCleanRow
    (List.mem_singleton.2 rfl)⟩
